import Mathlib

/-!
Verification of the circular-error metrics, loss functions and weight
initializer of the DL-MSTd-Acc-SelfMotion repository.

The numpy / tensorflow code is embedded shallowly:
* `acc.py` works element-wise with comparisons, additions and subtractions
  only, so its functions are modelled over `ℚ` (element-wise functions,
  plus list versions for the array level).  The masked in-place numpy
  assignments are applied sequentially, exactly as the source does: the
  second mask is evaluated on the array already rewritten by the first one.
* `losses.py` needs `cos` and `π`, so it is modelled over `ℝ`.
* `weight_initializers.py` needs `sqrt`, so it is modelled over `ℝ`; the
  random draw is modelled as an arbitrary list of raw samples bounded by
  the sampling edge, which is exactly what a uniform draw on
  `[-edge, edge)` guarantees.
* the aliasing behaviour of `acc.py` (which arrays are mutated in place)
  is modelled with an explicit heap of arrays addressed by indices.
-/

/-- Mean of a list, `sum / length`, as used by `np.mean` on a 1-D axis and
`tf.reduce_mean`. -/
def listMean {α : Type} [DivisionRing α] (l : List α) : α :=
  l.sum / (l.length : α)

/-! ### acc.py, element-wise model -/

/-- First masked assignment of `_bring_preds_within_range`:
`y[y > 180] = 180 + (180 - y[y > 180])`. -/
def reflectStep1 (v : ℚ) : ℚ :=
  if v > 180 then 180 + (180 - v) else v

/-- Second masked assignment of `_bring_preds_within_range`:
`y[y < -180] = -180 + (-180 - y[y < -180])`, evaluated on the array
already rewritten by `reflectStep1`. -/
def reflectStep2 (v : ℚ) : ℚ :=
  if v < -180 then -180 + (-180 - v) else v

/-- Element-wise effect of `_bring_preds_within_range`: the two masked
assignments applied in program order. -/
def bringPredsWithinRangeElem (v : ℚ) : ℚ :=
  reflectStep2 (reflectStep1 v)

/-- First masked assignment of `_circ_error_diff`:
`diff[diff > 180] = 360 - diff[diff > 180]`. -/
def wrapStep1 (d : ℚ) : ℚ :=
  if d > 180 then 360 - d else d

/-- Second masked assignment of `_circ_error_diff`:
`diff[diff < -180] = -360 - diff[diff < -180]`, evaluated after
`wrapStep1` has rewritten the array. -/
def wrapStep2 (d : ℚ) : ℚ :=
  if d < -180 then -360 - d else d

/-- Element-wise effect of `_circ_error_diff`. -/
def circErrorDiffElem (d : ℚ) : ℚ :=
  wrapStep2 (wrapStep1 d)

/-- Element-wise effect of `circ_error`: reflect the prediction, subtract
the true value, wrap the difference. -/
def circErrorElem (y_pred y_true : ℚ) : ℚ :=
  circErrorDiffElem (bringPredsWithinRangeElem y_pred - y_true)

/-! ### acc.py, array (list) model -/

/-- `_bring_preds_within_range` on a 1-D array. -/
def bring_preds_within_range (y_preds : List ℚ) : List ℚ :=
  y_preds.map bringPredsWithinRangeElem

/-- `circ_error` on 1-D arrays of equal length. -/
def circ_error (y_pred y_true : List ℚ) : List ℚ :=
  (y_pred.zip y_true).map (fun q => circErrorElem q.1 q.2)

/-- `mse(y_pred, y_true, circ_correction)` for 1-D arrays: the mean over
the batch axis of the squared differences. -/
def mse (y_pred y_true : List ℚ) (circ_correction : Bool) : ℚ :=
  let diff := if circ_correction then circ_error y_pred y_true
              else (y_pred.zip y_true).map (fun q => q.1 - q.2)
  listMean (diff.map (fun d => d ^ 2))

/-- `mae(y_pred, y_true, circ_correction)` for 1-D arrays: the mean over
the batch axis of the absolute differences. -/
def mae (y_pred y_true : List ℚ) (circ_correction : Bool) : ℚ :=
  let diff := if circ_correction then circ_error y_pred y_true
              else (y_pred.zip y_true).map (fun q => q.1 - q.2)
  listMean (diff.map (fun d => |d|))

/-- Mean squared error exactly as the spec words it: the mean of the
element-wise squared differences.  Kept separate from `mse` so the two can
be compared. -/
def meanSquaredDiffSpec (y_pred y_true : List ℚ) : ℚ :=
  listMean ((y_pred.zip y_true).map (fun q => (q.1 - q.2) ^ 2))

/-! ### Range lemmas shared by several claims -/

/-- On inputs in `[-540, 900]` the reflection lands in `[-180, 180]`. -/
lemma bringPreds_range (v : ℚ) (h1 : -540 ≤ v) (h2 : v ≤ 900) :
    -180 ≤ bringPredsWithinRangeElem v ∧ bringPredsWithinRangeElem v ≤ 180 := by
  unfold bringPredsWithinRangeElem reflectStep1 reflectStep2
  split_ifs <;> constructor <;> linarith

/-- On differences in `[-540, 900]` the wrap lands in `[-180, 180]`. -/
lemma circErrorDiff_range (d : ℚ) (h1 : -540 ≤ d) (h2 : d ≤ 900) :
    -180 ≤ circErrorDiffElem d ∧ circErrorDiffElem d ≤ 180 := by
  unfold circErrorDiffElem wrapStep1 wrapStep2
  split_ifs <;> constructor <;> linarith

/-! ### C1 -/

/-- C1 counterexample: the code wraps the difference `340` to `360 - 340 = 20`,
not to the claimed `-20`. -/
theorem C1_cex : circErrorElem 170 (-170) ≠ -20 := by
  norm_num [circErrorElem, circErrorDiffElem, bringPredsWithinRangeElem, reflectStep1, reflectStep2, wrapStep1, wrapStep2]

/-- C1 (amended): `circ_error(pred=170, true=-170)` equals `20`; in the wrap
regions the code returns the negation of the shorter signed path
(`-(d - 360)` for `d ∈ (180, 540]` and `-(d + 360)` for `d ∈ [-540, -180)`),
so the wrapped difference carries the magnitude of the shorter path but the
opposite sign. -/
theorem C1_amended :
    circErrorElem 170 (-170) = 20 ∧
    (∀ d : ℚ, 180 < d → d ≤ 540 → circErrorDiffElem d = -(d - 360)) ∧
    (∀ d : ℚ, -540 ≤ d → d < -180 → circErrorDiffElem d = -(d + 360)) := by
  refine ⟨by norm_num [circErrorElem, circErrorDiffElem, bringPredsWithinRangeElem, reflectStep1, reflectStep2, wrapStep1, wrapStep2], ?_, ?_⟩
  · intro d hd1 hd2
    unfold circErrorDiffElem wrapStep1 wrapStep2
    split_ifs <;> linarith
  · intro d hd1 hd2
    unfold circErrorDiffElem wrapStep1 wrapStep2
    split_ifs <;> linarith

/-- C1 witness: the amended statement at the concrete inputs of the claim
and at wrapped differences `340` and `-340`. -/
theorem C1_witness :
    circErrorElem 170 (-170) = 20 ∧
    circErrorDiffElem 340 = -(340 - 360) ∧
    circErrorDiffElem (-340) = -(-340 + 360) :=
  ⟨C1_amended.1,
   C1_amended.2.1 340 (by norm_num) (by norm_num),
   C1_amended.2.2 (-340) (by norm_num) (by norm_num)⟩

/-! ### C3 -/

/-- C3 counterexample: the claim fails for inputs below `-540` (the value
`-541` is reflected to `181`, outside the claimed interval) and at `-180`
(a fixed point, which is not in the half-open interval `(-180, 180]`). -/
theorem C3_cex :
    bringPredsWithinRangeElem (-541) ∉ Set.Ioc (-180 : ℚ) 180 ∧
    bringPredsWithinRangeElem (-180) ∉ Set.Ioc (-180 : ℚ) 180 := by
  constructor <;> · simp only [Set.mem_Ioc]; norm_num [bringPredsWithinRangeElem, reflectStep1, reflectStep2]

/-- C3 (amended): for every input `v` in `[-540, 900]`,
`_bring_preds_within_range` lands in the closed interval `[-180, 180]`;
outside that input band the result can leave the interval. -/
theorem C3_amended (v : ℚ) (h1 : -540 ≤ v) (h2 : v ≤ 900) :
    -180 ≤ bringPredsWithinRangeElem v ∧ bringPredsWithinRangeElem v ≤ 180 :=
  bringPreds_range v h1 h2

/-- C3 witness: the amended statement at the concrete input `190`. -/
theorem C3_witness :
    -180 ≤ bringPredsWithinRangeElem 190 ∧ bringPredsWithinRangeElem 190 ≤ 180 :=
  C3_amended 190 (by norm_num) (by norm_num)

/-! ### C4 -/

/-- C4 counterexample: for the prediction `2000` (and true value `0`) the
double application of the masked corrections leaves the error at `560`,
outside `[-180, 180]`. -/
theorem C4_cex :
    ¬(-180 ≤ circErrorElem 2000 0 ∧ circErrorElem 2000 0 ≤ 180) := by
  norm_num [circErrorElem, circErrorDiffElem, bringPredsWithinRangeElem, reflectStep1, reflectStep2, wrapStep1, wrapStep2]

/-- C4 (amended): for every prediction in `[-540, 900]` and every true value
in `[-180, 180]`, `circ_error` lies within `[-180, 180]`; for predictions
outside that band the reflection can overshoot and the wrapped error can
leave the interval. -/
theorem C4_amended (p t : ℚ) (hp1 : -540 ≤ p) (hp2 : p ≤ 900)
    (ht1 : -180 ≤ t) (ht2 : t ≤ 180) :
    -180 ≤ circErrorElem p t ∧ circErrorElem p t ≤ 180 := by
  have hr := bringPreds_range p hp1 hp2
  unfold circErrorElem
  exact circErrorDiff_range _ (by linarith [hr.1]) (by linarith [hr.2])

/-- C4 witness: the amended statement at the concrete inputs `(170, -170)`. -/
theorem C4_witness :
    -180 ≤ circErrorElem 170 (-170) ∧ circErrorElem 170 (-170) ≤ 180 :=
  C4_amended 170 (-170) (by norm_num) (by norm_num) (by norm_num) (by norm_num)

/-! ### C5 -/

/-- C5 counterexample: for the input `541` both masked assignments fire in
sequence, so the code returns `541 - 720 = -179`, not the claimed
`180 + (180 - 541) = -181`. -/
theorem C5_cex : bringPredsWithinRangeElem 541 ≠ 180 + (180 - 541) := by
  norm_num [bringPredsWithinRangeElem, reflectStep1, reflectStep2]

/-- C5 (amended): `_bring_preds_within_range` is the identity on
`(-180, 180]`; it returns `180 + (180 - v)` for `v` in `(180, 540]`; for
`v > 540` the second masked assignment fires as well and the result is
`v - 720`; for `v < -180` it returns `-180 + (-180 - v)`. -/
theorem C5_amended (v : ℚ) :
    (-180 < v → v ≤ 180 → bringPredsWithinRangeElem v = v) ∧
    (180 < v → v ≤ 540 → bringPredsWithinRangeElem v = 180 + (180 - v)) ∧
    (540 < v → bringPredsWithinRangeElem v = v - 720) ∧
    (v < -180 → bringPredsWithinRangeElem v = -180 + (-180 - v)) := by
  unfold bringPredsWithinRangeElem reflectStep1 reflectStep2
  refine ⟨?_, ?_, ?_, ?_⟩ <;> intros <;> split_ifs <;> linarith

/-- C5 witness: the amended statement exercised on one concrete input per
branch: `170`, `190`, `541` and `-190`. -/
theorem C5_witness :
    bringPredsWithinRangeElem 170 = 170 ∧
    bringPredsWithinRangeElem 190 = 180 + (180 - 190) ∧
    bringPredsWithinRangeElem 541 = 541 - 720 ∧
    bringPredsWithinRangeElem (-190) = -180 + (-180 - (-190)) :=
  ⟨(C5_amended 170).1 (by norm_num) (by norm_num),
   (C5_amended 190).2.1 (by norm_num) (by norm_num),
   (C5_amended 541).2.2.1 (by norm_num),
   (C5_amended (-190)).2.2.2 (by norm_num)⟩

/-! ### C8 -/

/-- C8: with `circ_correction = False`, `mse` is exactly the mean of the
element-wise squared differences, and concretely
`mse([1,3], [0,0]) = mean([1,9]) = 5`. -/
theorem C8_mse_plain :
    (∀ y_pred y_true : List ℚ, mse y_pred y_true false = meanSquaredDiffSpec y_pred y_true) ∧
    mse [1, 3] [0, 0] false = 5 := by
  constructor
  · intro y_pred y_true
    simp only [mse, meanSquaredDiffSpec, Bool.false_eq_true, if_false, List.map_map]
    rfl
  · norm_num [mse, listMean]

/-! ### losses.py -/

/-- `CircularLoss`: the constructor takes one positional configuration value
`exp`, which `__init__` discards. -/
structure CircularLoss where
  exp : ℝ

/-- `CircularLoss.call`: with `diff = y_pred - y_true`, the loss is
`reduce_mean(abs(maximum(0.5 * (1 - cos(pi * diff)), 1e-10)))`. -/
noncomputable def CircularLoss.call (_self : CircularLoss) (y_true y_pred : List ℝ) : ℝ :=
  listMean ((y_true.zip y_pred).map
    (fun q => |max (0.5 * (1 - Real.cos (Real.pi * (q.2 - q.1)))) (1 / 10 ^ 10)|))

/-- The circular loss with the outer absolute value removed, as the spec
describes the redundancy; compared against `CircularLoss.call`. -/
noncomputable def circularLossNoAbs (y_true y_pred : List ℝ) : ℝ :=
  listMean ((y_true.zip y_pred).map
    (fun q => max (0.5 * (1 - Real.cos (Real.pi * (q.2 - q.1)))) (1 / 10 ^ 10)))

/-- `MSE`: the constructor takes one positional configuration value `exp`,
which `__init__` discards. -/
structure MSE where
  exp : ℝ

/-- `MSE.call`: with `diff = y_pred - y_true`, the loss is
`reduce_mean(abs(diff) ** 2)`. -/
noncomputable def MSE.call (_self : MSE) (y_true y_pred : List ℝ) : ℝ :=
  listMean ((y_true.zip y_pred).map (fun q => |q.2 - q.1| ^ 2))

/-- Each per-sample term of the circular loss is at least the floor. -/
lemma circTerm_ge_eps (d : ℝ) :
    (1 / 10 ^ 10 : ℝ) ≤ max (0.5 * (1 - Real.cos (Real.pi * d))) (1 / 10 ^ 10) :=
  le_max_right _ _

/-- On a batch of one sample the circular loss is the per-sample term. -/
lemma circularLoss_singleton (e t p : ℝ) :
    (CircularLoss.mk e).call [t] [p] =
      |max (0.5 * (1 - Real.cos (Real.pi * (p - t)))) (1 / 10 ^ 10)| := by
  simp [CircularLoss.call, listMean]

/-! ### C2 -/

/-- C2 counterexample: at `true = 0`, `pred = 0.5` the difference is `0.5`,
`cos(π/2) = 0`, and the loss evaluates to `0.5`, which is not within `0.5`
of the claimed value `1.0`. -/
theorem C2_cex :
    (CircularLoss.mk 0).call [0] [1 / 2] = 1 / 2 ∧
    ¬ |(CircularLoss.mk 0).call [0] [1 / 2] - 1| < 1 / 2 := by
  have hv : (CircularLoss.mk 0).call [0] [1 / 2] = 1 / 2 := by
    rw [circularLoss_singleton]
    rw [show Real.pi * ((1 : ℝ) / 2 - 0) = Real.pi / 2 by ring, Real.cos_pi_div_two]
    rw [show (0.5 : ℝ) * (1 - 0) = 1 / 2 by norm_num]
    rw [max_eq_left (by norm_num)]
    exact abs_of_pos (by norm_num)
  refine ⟨hv, ?_⟩
  rw [hv, show (1 : ℝ) / 2 - 1 = -(1 / 2) by ring, abs_neg, abs_of_pos (by norm_num)]
  norm_num

/-- C2 (amended): the circular loss at `true = 0`, `pred = 0.5` is `0.5`,
not the maximum; the maximum value `1.0` of the formula is attained at a
normalized difference of `±1`, e.g. at `true = -0.5`, `pred = 0.5`. -/
theorem C2_amended :
    (CircularLoss.mk 0).call [0] [1 / 2] = 1 / 2 ∧
    (CircularLoss.mk 0).call [-(1 / 2)] [1 / 2] = 1 := by
  constructor
  · rw [circularLoss_singleton]
    rw [show Real.pi * ((1 : ℝ) / 2 - 0) = Real.pi / 2 by ring, Real.cos_pi_div_two]
    rw [show (0.5 : ℝ) * (1 - 0) = 1 / 2 by norm_num]
    rw [max_eq_left (by norm_num)]
    exact abs_of_pos (by norm_num)
  · rw [circularLoss_singleton]
    rw [show Real.pi * ((1 : ℝ) / 2 - -(1 / 2)) = Real.pi by ring, Real.cos_pi]
    rw [show (0.5 : ℝ) * (1 - -1) = 1 by norm_num]
    rw [max_eq_left (by norm_num)]
    exact abs_of_pos (by norm_num)

/-! ### C6 -/

/-- C6: every per-sample circular-loss term is at least `1e-10` and never
zero, the outer absolute value is redundant (the loss without it is
identical), and the loss at `true = 0`, `pred = 0` is exactly the floor
`1e-10`. -/
theorem C6_floor_and_abs :
    (∀ d : ℝ, (1 / 10 ^ 10 : ℝ) ≤ max (0.5 * (1 - Real.cos (Real.pi * d))) (1 / 10 ^ 10) ∧
      max (0.5 * (1 - Real.cos (Real.pi * d))) (1 / 10 ^ 10) ≠ 0) ∧
    (∀ (e : ℝ) (y_true y_pred : List ℝ),
      (CircularLoss.mk e).call y_true y_pred = circularLossNoAbs y_true y_pred) ∧
    (CircularLoss.mk 0).call [0] [0] = 1 / 10 ^ 10 := by
  refine ⟨?_, ?_, ?_⟩
  · intro d
    refine ⟨circTerm_ge_eps d, ?_⟩
    have h := circTerm_ge_eps d
    intro h0
    rw [h0] at h
    norm_num at h
  · intro e y_true y_pred
    unfold CircularLoss.call circularLossNoAbs
    congr 1
    apply List.map_congr_left
    intro q _
    exact abs_of_pos (lt_of_lt_of_le (by norm_num) (circTerm_ge_eps (q.2 - q.1)))
  · rw [circularLoss_singleton]
    rw [show Real.pi * ((0 : ℝ) - 0) = 0 by ring, Real.cos_zero]
    rw [show (0.5 : ℝ) * (1 - 1) = 0 by norm_num]
    rw [max_eq_right (by norm_num)]
    exact abs_of_pos (by norm_num)

/-! ### C9 -/

/-- C9: the values of both loss callables are independent of the `exp`
configuration value passed to the constructor: any two choices yield
identical losses on every batch. -/
theorem C9_exp_unused (e1 e2 : ℝ) (y_true y_pred : List ℝ) :
    (CircularLoss.mk e1).call y_true y_pred = (CircularLoss.mk e2).call y_true y_pred ∧
    (MSE.mk e1).call y_true y_pred = (MSE.mk e2).call y_true y_pred :=
  ⟨rfl, rfl⟩

/-! ### weight_initializers.py -/

/-- `GlorotUniformNonNegative`: the constructor stores an optional seed. -/
structure GlorotUniformNonNegative where
  seed : Option ℕ

/-- Fan-in of a weight shape: `shape[-2]`. -/
def fan_in (shape : List ℕ) : ℕ :=
  shape.getD (shape.length - 2) 0

/-- Fan-out of a weight shape: `shape[-1]`. -/
def fan_out (shape : List ℕ) : ℕ :=
  shape.getD (shape.length - 1) 0

/-- The sampling bound `edge = sqrt(6.0 / (fan_in + fan_out))`. -/
noncomputable def glorotEdge (shape : List ℕ) : ℝ :=
  Real.sqrt (6 / ((fan_in shape : ℝ) + (fan_out shape : ℝ)))

/-- `GlorotUniformNonNegative.__call__`: the uniform draw on
`[-edge, edge)` is modelled by the list `raw` of raw samples (one per
tensor element); the call returns their absolute values. -/
def GlorotUniformNonNegative.call (_self : GlorotUniformNonNegative)
    (_shape : List ℕ) (raw : List ℝ) : List ℝ :=
  raw.map (fun x => |x|)

/-! ### C7 -/

/-- C7: for every shape of rank at least 2 and every draw of raw uniform
samples within `[-edge, edge]`, every element returned by the initializer
lies in `[0, edge]`, with `edge = sqrt(6 / (fan_in + fan_out))`; in
particular every element is non-negative. -/
theorem C7_nonneg_bounded (s : GlorotUniformNonNegative) (shape : List ℕ)
    (raw : List ℝ) (_hrank : 2 ≤ shape.length)
    (hraw : ∀ x ∈ raw, -glorotEdge shape ≤ x ∧ x ≤ glorotEdge shape) :
    ∀ w ∈ s.call shape raw, 0 ≤ w ∧ w ≤ glorotEdge shape := by
  intro w hw
  rw [GlorotUniformNonNegative.call, List.mem_map] at hw
  obtain ⟨x, hx, rfl⟩ := hw
  exact ⟨abs_nonneg x, abs_le.mpr ⟨(hraw x hx).1, (hraw x hx).2⟩⟩

/-- C7 witness: the bound at the concrete shape `[2, 3]`, the single raw
sample `0` and the resulting element `|0|`. -/
theorem C7_witness :
    0 ≤ |(0 : ℝ)| ∧ |(0 : ℝ)| ≤ glorotEdge [2, 3] :=
  C7_nonneg_bounded (GlorotUniformNonNegative.mk none) [2, 3] [0] (by norm_num)
    (by
      intro x hx
      rw [List.mem_singleton] at hx
      subst hx
      exact ⟨neg_nonpos.mpr (Real.sqrt_nonneg _), Real.sqrt_nonneg _⟩)
    |(0 : ℝ)| (by simp [GlorotUniformNonNegative.call])

/-! ### Heap model of the numpy aliasing in acc.py -/

/-- A heap of numpy arrays addressed by indices. -/
abbrev Heap : Type := List (List ℚ)

/-- Read the array stored at reference `r`. -/
def readArr (h : Heap) (r : ℕ) : List ℚ :=
  List.getD h r []

/-- Overwrite the array stored at reference `r` in place. -/
def writeArr (h : Heap) (r : ℕ) (a : List ℚ) : Heap :=
  List.set h r a

/-- Allocate a fresh array, returning its reference and the new heap. -/
def allocArr (h : Heap) (a : List ℚ) : ℕ × Heap :=
  (List.length h, h ++ [a])

/-- A masked in-place assignment `x[mask] = f(x[mask])`: rewrite the array
at `r` element-wise. -/
def maskedAssign (h : Heap) (r : ℕ) (f : ℚ → ℚ) : Heap :=
  writeArr h r ((readArr h r).map f)

/-- Element-wise difference of two arrays, allocated fresh by numpy. -/
def zipSub (a b : List ℚ) : List ℚ :=
  (a.zip b).map (fun q => q.1 - q.2)

/-- `_bring_preds_within_range` on the heap: copy `y_preds`, then apply the
two masked assignments to the copy in place. -/
def bringPredsWithinRangeH (h : Heap) (rPreds : ℕ) : ℕ × Heap :=
  let rc := allocArr h (readArr h rPreds)
  let h2 := maskedAssign rc.2 rc.1 reflectStep1
  let h3 := maskedAssign h2 rc.1 reflectStep2
  (rc.1, h3)

/-- `_circ_error_diff` on the heap: the two masked assignments mutate the
argument array in place. -/
def circErrorDiffH (h : Heap) (rDiff : ℕ) : Heap :=
  maskedAssign (maskedAssign h rDiff wrapStep1) rDiff wrapStep2

/-- `circ_error` on the heap: reflect into a copy, allocate the fresh
difference array, wrap it in place, and return its reference. -/
def circErrorH (h : Heap) (rPred rTrue : ℕ) : ℕ × Heap :=
  let rr := bringPredsWithinRangeH h rPred
  let rd := allocArr rr.2 (zipSub (readArr rr.2 rr.1) (readArr rr.2 rTrue))
  (rd.1, circErrorDiffH rd.2 rd.1)

lemma length_writeArr (h : Heap) (r : ℕ) (a : List ℚ) :
    List.length (writeArr h r a) = List.length h :=
  List.length_set h r a

lemma length_maskedAssign (h : Heap) (r : ℕ) (f : ℚ → ℚ) :
    List.length (maskedAssign h r f) = List.length h :=
  length_writeArr _ _ _

lemma readArr_writeArr_ne (h : Heap) (r rW : ℕ) (a : List ℚ) (hne : rW ≠ r) :
    readArr (writeArr h rW a) r = readArr h r := by
  unfold readArr writeArr
  rw [List.getD_eq_getElem?_getD, List.getD_eq_getElem?_getD, List.getElem?_set_ne hne]

lemma readArr_maskedAssign_ne (h : Heap) (r rW : ℕ) (f : ℚ → ℚ) (hne : rW ≠ r) :
    readArr (maskedAssign h rW f) r = readArr h r :=
  readArr_writeArr_ne _ _ _ _ hne

lemma readArr_append (h : Heap) (a : List ℚ) (r : ℕ) (hr : r < List.length h) :
    readArr (h ++ [a]) r = readArr h r := by
  unfold readArr
  rw [List.getD_eq_getElem?_getD, List.getD_eq_getElem?_getD, List.getElem?_append_left hr]

/-- Every read below the original heap size is unchanged by `circ_error`:
all writes go to the two freshly allocated arrays. -/
lemma circErrorH_frame (h : Heap) (rPred rTrue r : ℕ) (hr : r < List.length h) :
    readArr (circErrorH h rPred rTrue).2 r = readArr h r := by
  unfold circErrorH bringPredsWithinRangeH circErrorDiffH
  dsimp only [allocArr]
  have hne1 : List.length h ≠ r := by omega
  have hlen3 : r < List.length (maskedAssign (maskedAssign (h ++ [readArr h rPred])
      (List.length h) reflectStep1) (List.length h) reflectStep2) := by
    rw [length_maskedAssign, length_maskedAssign, List.length_append, List.length_singleton]
    omega
  have hne2 : List.length (maskedAssign (maskedAssign (h ++ [readArr h rPred])
      (List.length h) reflectStep1) (List.length h) reflectStep2) ≠ r := by omega
  rw [readArr_maskedAssign_ne _ _ _ _ hne2, readArr_maskedAssign_ne _ _ _ _ hne2,
    readArr_append _ _ _ hlen3,
    readArr_maskedAssign_ne _ _ _ _ hne1, readArr_maskedAssign_ne _ _ _ _ hne1,
    readArr_append _ _ _ hr]

/-! ### C10 -/

/-- C10: `circ_error` leaves both input arrays unchanged on the heap: the
reflection rewrites only a fresh copy of `y_pred`, and the wrap rewrites
only the freshly allocated difference array. -/
theorem C10_inputs_unchanged (h : Heap) (rPred rTrue : ℕ)
    (hp : rPred < List.length h) (ht : rTrue < List.length h) :
    readArr (circErrorH h rPred rTrue).2 rPred = readArr h rPred ∧
    readArr (circErrorH h rPred rTrue).2 rTrue = readArr h rTrue :=
  ⟨circErrorH_frame h rPred rTrue rPred hp, circErrorH_frame h rPred rTrue rTrue ht⟩

/-- C10 witness: the frame property on the concrete heap holding the two
arrays `[170]` and `[-170]`. -/
theorem C10_witness :
    readArr (circErrorH [[170], [-170]] 0 1).2 0 = readArr [[170], [-170]] 0 ∧
    readArr (circErrorH [[170], [-170]] 0 1).2 1 = readArr [[170], [-170]] 1 :=
  C10_inputs_unchanged [[170], [-170]] 0 1 (by norm_num) (by norm_num)
